import Mathlib

/-!
Verification of the interactive terminal core of `roleTerminal`
(`src/private/scripts/feed.js`): the command queue and dispatcher, the
multi-step command state machine, the autocomplete matcher, the history
navigator and the morse codec/scheduler.  The JavaScript source is embedded
shallowly: module-level mutable state becomes explicit state records,
`setTimeout`-driven recursion becomes recursion with an explicit time
cursor, and external collaborators (registry, storage, DOM, labels) become
parameters gathered in an environment record.
-/

namespace RoleTerminal

/-! ## Morse codec / scheduler (`playMorse`, `feed.js` lines 143-195) -/

/-- Constant `dot` from `feed.js`. -/
def dot : Char := '.'

/-- Constant `dash` from `feed.js`. -/
def dash : Char := '-'

/-- Constant `morseSeparator` from `feed.js`: symbolizes space between words
in a morse string. -/
def morseSeparator : Char := '#'

/-- One scheduled gain toggle: `setTimeout(setGain, time, gain)`.  The
`soundQueue` of `feed.js` stores the timeout handles of exactly these
scheduled calls. -/
structure MorseEvent where
  time : Nat
  gain : Nat
deriving DecidableEq, Repr

/-- The module-level mutable sound state of `feed.js`: the `soundQueue`
array and the running `soundTimeout` cursor. -/
structure SoundState where
  soundQueue : List MorseEvent
  soundTimeout : Nat
deriving DecidableEq, Repr

/-- One iteration of the `for` loop in `playMorse`: classify the symbol,
push the two gain events for a pulse, and advance `soundTimeout` by the
symbol's duration. -/
def morseStep (code : Char) (s : SoundState) : SoundState :=
  let duration : Nat :=
    if dot = code then 50
    else if dash = code then 150
    else if morseSeparator = code then 200
    else 75
  let shouldPlay : Bool := (dot = code : Bool) || (dash = code : Bool)
  { soundQueue :=
      if shouldPlay then
        s.soundQueue ++ [⟨s.soundTimeout, 1⟩, ⟨s.soundTimeout + duration, 0⟩]
      else s.soundQueue
    soundTimeout := s.soundTimeout + duration }

/-- The whole `for` loop of `playMorse`, walking the symbol string left to
right. -/
def playMorseLoop : List Char → SoundState → SoundState
  | [], s => s
  | c :: cs, s => playMorseLoop cs (morseStep c s)

/-- The decoded text computed by `finishSoundQueue`:
`morseCode.replace(/#/g, '')`. -/
def cleanMorse (morseCode : String) : String :=
  ⟨morseCode.data.filter (fun c => !(c == '#'))⟩

/-- The result of one `playMorse(morseCode, silent)` call: the sound state
after the loop, plus the terminal `finishSoundQueue` event scheduled at the
final cursor with removal count `2 * morseCode.length`. -/
structure MorseRun where
  finalState : SoundState
  cleanupTime : Nat
  cleanupCount : Nat
  decodedText : Option String
  queueAfterCleanup : List MorseEvent
deriving DecidableEq, Repr

/-- Embedding of `playMorse` (`feed.js` lines 143-195): reset the cursor to
0 when no playback is queued, schedule the symbols, then schedule
`finishSoundQueue` at the final cursor; the cleanup splices
`2 * morseCode.length` entries off the front of the queue and, unless
silent, emits the decoded text. -/
def playMorse (morseCode : String) (silent : Bool) (s : SoundState) : MorseRun :=
  let s0 : SoundState := if s.soundQueue.length = 0 then { s with soundTimeout := 0 } else s
  let s1 := playMorseLoop morseCode.data s0
  { finalState := s1
    cleanupTime := s1.soundTimeout
    cleanupCount := 2 * morseCode.length
    decodedText := if silent then none else some (cleanMorse morseCode)
    queueAfterCleanup := s1.soundQueue.drop (2 * morseCode.length) }

/-- Specification-side duration table, following the spec's words:
`.` is 50ms, `-` is 150ms, `#` is a 200ms gap, anything else a 75ms gap. -/
def specSymbolDuration (c : Char) : Nat :=
  if c = '.' then 50 else if c = '-' then 150 else if c = '#' then 200 else 75

/-- Specification-side events of one symbol, following the spec's words: a
pulse symbol schedules gain-on at the cursor and gain-off at
cursor + duration; separators and unknown characters schedule nothing. -/
def specSymbolEvents (t : Nat) (c : Char) : List MorseEvent :=
  if c = '.' then [⟨t, 1⟩, ⟨t + 50, 0⟩]
  else if c = '-' then [⟨t, 1⟩, ⟨t + 150, 0⟩]
  else []

/-- Specification-side timeline of a whole symbol string starting at a given
cursor, following the spec's words. -/
def specMorseTimeline (t : Nat) : List Char → List MorseEvent
  | [] => []
  | c :: cs => specSymbolEvents t c ++ specMorseTimeline (t + specSymbolDuration c) cs

/-- Specification-side total duration of a symbol string. -/
def specTotalDuration : List Char → Nat
  | [] => 0
  | c :: cs => specSymbolDuration c + specTotalDuration cs

/-- Whether a symbol is a pulse symbol (audible dot or dash). -/
def isPulseSymbol (c : Char) : Bool := c == '.' || c == '-'

lemma morseStep_eq_spec (c : Char) (s : SoundState) :
    morseStep c s =
      ⟨s.soundQueue ++ specSymbolEvents s.soundTimeout c,
        s.soundTimeout + specSymbolDuration c⟩ := by
  by_cases h1 : c = '.'
  · simp [morseStep, specSymbolEvents, specSymbolDuration, dot, h1]
  · by_cases h2 : c = '-'
    · simp [morseStep, specSymbolEvents, specSymbolDuration, dot, dash, h2]
    · by_cases h3 : c = '#'
      · simp [morseStep, specSymbolEvents, specSymbolDuration, dot, dash, morseSeparator,
          h3, Ne.symm h1, Ne.symm h2]
      · simp [morseStep, specSymbolEvents, specSymbolDuration, dot, dash, morseSeparator,
          Ne.symm h1, Ne.symm h2, Ne.symm h3, h1, h2, h3]

lemma playMorseLoop_eq_spec (cs : List Char) (s : SoundState) :
    playMorseLoop cs s =
      ⟨s.soundQueue ++ specMorseTimeline s.soundTimeout cs,
        s.soundTimeout + specTotalDuration cs⟩ := by
  induction cs generalizing s with
  | nil => simp [playMorseLoop, specMorseTimeline, specTotalDuration]
  | cons c cs ih =>
    simp only [playMorseLoop, specMorseTimeline, specTotalDuration]
    rw [morseStep_eq_spec, ih]
    simp [List.append_assoc]
    omega

lemma specMorseTimeline_length (t : Nat) (cs : List Char) :
    (specMorseTimeline t cs).length = 2 * cs.countP isPulseSymbol := by
  induction cs generalizing t with
  | nil => simp [specMorseTimeline]
  | cons c cs ih =>
    simp only [specMorseTimeline, List.length_append, ih, List.countP_cons]
    by_cases h1 : c = '.'
    · simp [specSymbolEvents, isPulseSymbol, h1]
      omega
    · by_cases h2 : c = '-'
      · simp [specSymbolEvents, isPulseSymbol, h2]
        omega
      · simp [specSymbolEvents, isPulseSymbol, h1, h2]

/-! ## Command queue and dispatcher (`feed.js` lines 85-91, 443-471) -/

/-- The fixed inter-command delay `commandTime` of `feed.js`. -/
def commandTime : Nat := 1000

/-- A queued invocation, as pushed by `queueCommand`. -/
structure Invocation where
  command : String
  data : List String
  commandMsg : Option String
deriving DecidableEq, Repr

/-- The module-level dispatcher state of `feed.js`: the `commandQueue`
array, the `commmandUsed` busy flag, the messages queued through
`messenger.queueMessage`, and the trace of `commandHandler.triggerCommand`
calls tagged with the virtual time at which each fires. -/
structure DispatchState where
  commandQueue : List Invocation
  commmandUsed : Bool
  messages : List String
  executed : List (Nat × String × List String)
deriving DecidableEq, Repr

/-- Embedding of `queueCommand`: push one invocation onto the tail of the
command queue. -/
def queueCommand (command : String) (data : List String) (commandMsg : Option String)
    (s : DispatchState) : DispatchState :=
  { s with commandQueue := s.commandQueue ++ [⟨command, data, commandMsg⟩] }

/-- Body of `consumeCommandQueue` with the queue threaded explicitly; the
`setTimeout(consumeCommandQueue, commandTime)` self-call becomes a
recursive call at time `t + commandTime`. -/
def consumeFrom (t : Nat) : List Invocation → DispatchState → DispatchState
  | [], s => { s with commmandUsed := false }
  | stored :: rest, s =>
    consumeFrom (t + commandTime) rest
      { commandQueue := rest
        commmandUsed := true
        messages := s.messages ++ stored.commandMsg.toList
        executed := s.executed ++ [(t, stored.command, stored.data)] }

/-- Embedding of `consumeCommandQueue` (`feed.js` lines 446-462), started at
virtual time `t`. -/
def consumeCommandQueue (t : Nat) (s : DispatchState) : DispatchState :=
  consumeFrom t s.commandQueue s

/-- Embedding of `startCommandQueue` (`feed.js` lines 467-471): begin
consumption only when the busy flag is clear. -/
def startCommandQueue (t : Nat) (s : DispatchState) : DispatchState :=
  if s.commmandUsed then s else consumeCommandQueue t s

/-- The dispatcher state before anything has been enqueued. -/
def idleDispatchState : DispatchState :=
  { commandQueue := [], commmandUsed := false, messages := [], executed := [] }

/-- Enqueue a list of invocations in order, as a user submitting several
commands while the dispatcher is idle would. -/
def enqueueAll (invs : List Invocation) (s : DispatchState) : DispatchState :=
  invs.foldl (fun acc inv => queueCommand inv.command inv.data inv.commandMsg acc) s

/-- Specification-side timed trace, following the spec's words: the
invocations fire in submission order, successive start times separated by
exactly the fixed inter-command delay. -/
def specTimedTrace (t : Nat) : List Invocation → List (Nat × String × List String)
  | [] => []
  | inv :: rest => (t, inv.command, inv.data) :: specTimedTrace (t + commandTime) rest

/-- The echo messages emitted while draining a queue, in order. -/
def queuedMessages : List Invocation → List String
  | [] => []
  | inv :: rest => inv.commandMsg.toList ++ queuedMessages rest

lemma enqueueAll_eq (invs : List Invocation) (s : DispatchState) :
    enqueueAll invs s = { s with commandQueue := s.commandQueue ++ invs } := by
  induction invs generalizing s with
  | nil => simp [enqueueAll]
  | cons inv rest ih =>
    simp only [enqueueAll, List.foldl_cons] at *
    rw [ih]
    simp [queueCommand]

lemma consumeFrom_eq (q : List Invocation) (t : Nat) (s : DispatchState)
    (h : s.commandQueue = q) :
    consumeFrom t q s =
      { commandQueue := []
        commmandUsed := false
        messages := s.messages ++ queuedMessages q
        executed := s.executed ++ specTimedTrace t q } := by
  induction q generalizing t s with
  | nil =>
    cases s
    simp_all [consumeFrom, queuedMessages, specTimedTrace]
  | cons inv rest ih =>
    simp only [consumeFrom]
    rw [ih _ _ rfl]
    simp [queuedMessages, specTimedTrace, List.append_assoc]

/-! ## Claim theorems: dispatcher and morse scheduler -/

/-- C1: enqueuing any sequence of invocations while the dispatcher is idle
and then starting it executes exactly those invocations, in submission
order, one at a time, each start separated from the next by the fixed
inter-command delay; and calling `startCommandQueue` while the busy flag is
set (draining in progress) is a no-op. -/
theorem dispatcher_fifo_fixed_delay (invs : List Invocation) (t : Nat) :
    (startCommandQueue t (enqueueAll invs idleDispatchState)).executed = specTimedTrace t invs
    ∧ (startCommandQueue t (enqueueAll invs idleDispatchState)).commandQueue = []
    ∧ (startCommandQueue t (enqueueAll invs idleDispatchState)).commmandUsed = false
    ∧ ∀ s : DispatchState, s.commmandUsed = true → startCommandQueue t s = s := by
  rw [enqueueAll_eq]
  have hrun : startCommandQueue t { idleDispatchState with
      commandQueue := idleDispatchState.commandQueue ++ invs } =
      consumeFrom t invs { idleDispatchState with
        commandQueue := idleDispatchState.commandQueue ++ invs } := by
    simp [startCommandQueue, idleDispatchState, consumeCommandQueue]
  rw [hrun, consumeFrom_eq _ _ _ (by simp [idleDispatchState])]
  refine ⟨by simp [idleDispatchState], rfl, rfl, ?_⟩
  intro s hs
  simp [startCommandQueue, hs]

/-- Witness for C1 at concrete inputs: a busy dispatcher ignores `start`,
and two idle enqueues run at times 5 and 5 + 1000. -/
theorem dispatcher_fifo_fixed_delay_witness :
    startCommandQueue 0 ⟨[⟨"msg", ["hi"], none⟩], true, [], []⟩
        = ⟨[⟨"msg", ["hi"], none⟩], true, [], []⟩
    ∧ (startCommandQueue 5 (enqueueAll [⟨"a", [], none⟩, ⟨"b", [], none⟩] idleDispatchState)).executed
        = [(5, "a", []), (1005, "b", [])] :=
  ⟨(dispatcher_fifo_fixed_delay [] 0).2.2.2 _ rfl,
   by rw [(dispatcher_fifo_fixed_delay [⟨"a", [], none⟩, ⟨"b", [], none⟩] 5).1]; rfl⟩

/-- C6: `playMorse` walks the symbol string left to right with a cursor
initialized to 0 exactly when no playback is queued (otherwise continuing
from the running cursor, so overlapping requests concatenate onto the
queue), appends for each symbol exactly the spec-side events (`.`: gain-on
at the cursor and gain-off 50ms later, `-`: gain-on and gain-off 150ms
later, `#` and unknown characters: no gain events), and advances the
cursor by the symbol's duration (50/150/200/75ms) regardless of symbol
type. -/
theorem playMorse_schedules_spec_timeline (s : SoundState) (mc : String) (silent : Bool) :
    (playMorse mc silent s).finalState.soundQueue =
      s.soundQueue ++ specMorseTimeline (if s.soundQueue.length = 0 then 0 else s.soundTimeout) mc.data
    ∧ (playMorse mc silent s).finalState.soundTimeout =
      (if s.soundQueue.length = 0 then 0 else s.soundTimeout) + specTotalDuration mc.data
    ∧ ∀ (c : Char) (s' : SoundState),
        morseStep c s' =
          ⟨s'.soundQueue ++ specSymbolEvents s'.soundTimeout c,
            s'.soundTimeout + specSymbolDuration c⟩ := by
  refine ⟨?_, ?_, fun c s' => morseStep_eq_spec c s'⟩ <;>
    · unfold playMorse
      by_cases h : s.soundQueue.length = 0 <;> simp [h, playMorseLoop_eq_spec]

/-- C7 counterexample: playing `".-#"` from an empty sound queue schedules
its terminal cleanup at offset 400 (50ms dot + 150ms dash + 200ms
separator), not at offset 250 as the claim states. -/
theorem playMorse_dotdashsep_cleanup_cex :
    (playMorse ".-#" false ⟨[], 0⟩).cleanupTime = 400 ∧ (400 : Nat) ≠ 250 := by
  exact ⟨rfl, by decide⟩

/-- C7 amended: playing `".-#"` from an empty sound queue schedules gain-on
at 0 and gain-off at 50 for the dot, gain-on at 50 and gain-off at 200 for
the dash, nothing for the separator, and the terminal cleanup at offset
400; the decoded text emitted at cleanup is the input with every `#`
stripped, namely `".-"`, and the cleanup empties the sound queue. -/
theorem playMorse_dotdashsep_schedule :
    (playMorse ".-#" false ⟨[], 0⟩).finalState.soundQueue
        = [⟨0, 1⟩, ⟨50, 0⟩, ⟨50, 1⟩, ⟨200, 0⟩]
    ∧ (playMorse ".-#" false ⟨[], 0⟩).cleanupTime = 400
    ∧ (playMorse ".-#" false ⟨[], 0⟩).decodedText = some ".-"
    ∧ (playMorse ".-#" false ⟨[], 0⟩).queueAfterCleanup = [] := by
  refine ⟨rfl, rfl, ?_, rfl⟩
  decide

/-- C10 counterexample: for `playMorse "#"` from an empty queue the loop
appends 0 entries and the capped cleanup also removes 0 entries, so the
removed count equals the appended count even though not every symbol of
`"#"` is a pulse symbol, contradicting the claim's "only when". -/
theorem playMorse_cleanup_count_cex :
    (playMorse "#" false ⟨[], 0⟩).finalState.soundQueue = []
    ∧ (playMorse "#" false ⟨[], 0⟩).queueAfterCleanup = []
    ∧ (playMorse "#" false ⟨[], 0⟩).cleanupCount = 2
    ∧ ("#".data.all isPulseSymbol) = false := by
  refine ⟨rfl, rfl, rfl, ?_⟩
  decide

/-- C10 amended: each `playMorse s` call appends exactly
2 × (pulse symbols of s) entries to the sound queue, while its cleanup
event requests removal of 2 × |s| entries from the front, capped at the
queue length; the requested removal count equals the appended count
exactly when every symbol of s is a pulse symbol (the actually removed
count can also coincide when non-pulse symbols exhaust the queue early). -/
theorem playMorse_queue_accounting (s : SoundState) (mc : String) (silent : Bool) :
    (playMorse mc silent s).finalState.soundQueue.length
        = s.soundQueue.length + 2 * mc.data.countP isPulseSymbol
    ∧ (playMorse mc silent s).cleanupCount = 2 * mc.length
    ∧ (playMorse mc silent s).queueAfterCleanup
        = (playMorse mc silent s).finalState.soundQueue.drop (2 * mc.length)
    ∧ (2 * mc.length = 2 * mc.data.countP isPulseSymbol ↔ mc.data.all isPulseSymbol) := by
  have hlen : mc.length = mc.data.length := rfl
  have hq : (playMorse mc silent s).finalState.soundQueue.length
      = s.soundQueue.length + 2 * mc.data.countP isPulseSymbol := by
    unfold playMorse
    by_cases h : s.soundQueue.length = 0 <;>
      simp [h, playMorseLoop_eq_spec, specMorseTimeline_length]
  refine ⟨hq, rfl, rfl, ?_⟩
  have hle : mc.data.countP isPulseSymbol ≤ mc.data.length := List.countP_le_length _
  constructor
  · intro h
    have hc : mc.data.countP isPulseSymbol = mc.data.length := by omega
    rw [List.all_eq_true]
    intro x hx
    exact List.countP_eq_length.mp hc x hx
  · intro h
    have hc : mc.data.countP isPulseSymbol = mc.data.length :=
      List.countP_eq_length.mpr (fun a ha => (List.all_eq_true.mp h) a ha)
    omega

/-! ## Multi-step command state machine (`feed.js` lines 1507-1547) -/

/-- The singleton `commandHandler.commandHelper` record: the active command
name (or none), the step cursor `onStep`, the fallback step, the
re-entrancy guard `keysBlocked` and the echo suppression flag `hideInput`. -/
structure CommandHelper where
  command : Option String
  onStep : Nat
  fallbackStep : Nat
  keysBlocked : Bool
  hideInput : Bool
deriving DecidableEq, Repr

/-- Modelled from the spec: `commandHandler.resetCommand` lives in the
`commandHandler` module, which is not among the provided sources.  Per the
spec, abort/reset "clears to none": the active command is removed and the
session returns to IDLE with a cleared cursor and released guards.  The
`aborted` flag only controls an abort notice, not the resulting state. -/
def resetCommand (_aborted : Bool) (_h : CommandHelper) : CommandHelper :=
  { command := none, onStep := 0, fallbackStep := 0, keysBlocked := false, hideInput := false }

/-- The parameter object of `onCommandSuccess`. -/
structure SuccessParams where
  noStepCall : Bool
  freezeStep : Bool
  newData : List String
deriving DecidableEq, Repr

/-- Embedding of `onCommandSuccess` (`feed.js` lines 1513-1525).  The
second component records the `triggerCommandStep` call made to the
external step handler, if any. -/
def onCommandSuccess (params : SuccessParams) (h : CommandHelper) :
    CommandHelper × Option (List String) :=
  if params.noStepCall = false then
    (if params.freezeStep = false then { h with onStep := h.onStep + 1 } else h,
      some params.newData)
  else
    (resetCommand false h, none)

/-- Embedding of `onCommandFail` (`feed.js` lines 1530-1537): abort and
reset only when a command is active. -/
def onCommandFail (h : CommandHelper) : CommandHelper :=
  if h.command ≠ none then resetCommand true h else h

/-- C2: for an active multi-step session, a success signal without the
freeze flag increments the step cursor by exactly 1 and then calls the next
step; a success with the freeze flag leaves the cursor unchanged; a success
with the no-further-step flag (`noStepCall`) resets the session to IDLE
without incrementing; and terminal failure or an abort reset return the
session to IDLE regardless of the current cursor value. -/
theorem multiStep_cursor_transitions (h : CommandHelper) (c : String) (d : List String)
    (b : Bool) (hc : h.command = some c) :
    (onCommandSuccess ⟨false, false, d⟩ h).1.onStep = h.onStep + 1
    ∧ (onCommandSuccess ⟨false, false, d⟩ h).2 = some d
    ∧ (onCommandSuccess ⟨false, true, d⟩ h).1.onStep = h.onStep
    ∧ (onCommandSuccess ⟨false, true, d⟩ h).1.command = some c
    ∧ (onCommandSuccess ⟨true, b, d⟩ h).1.command = none
    ∧ (onCommandSuccess ⟨true, b, d⟩ h).1.onStep = 0
    ∧ (onCommandSuccess ⟨true, b, d⟩ h).2 = none
    ∧ (onCommandFail h).command = none
    ∧ (onCommandFail h).onStep = 0
    ∧ (resetCommand true h).command = none := by
  simp [onCommandSuccess, onCommandFail, resetCommand, hc]

/-- Witness for C2 at a concrete active session on step 4. -/
theorem multiStep_cursor_transitions_witness :
    (onCommandSuccess ⟨false, false, ["x"]⟩ ⟨some "login", 4, 1, false, true⟩).1.onStep = 5
    ∧ (onCommandSuccess ⟨false, true, ["x"]⟩ ⟨some "login", 4, 1, false, true⟩).1.onStep = 4
    ∧ (onCommandSuccess ⟨true, false, ["x"]⟩ ⟨some "login", 4, 1, false, true⟩).1.command = none
    ∧ (onCommandFail ⟨some "login", 4, 1, false, true⟩).command = none := by
  have h := multiStep_cursor_transitions ⟨some "login", 4, 1, false, true⟩ "login" ["x"] false rfl
  exact ⟨h.1, h.2.2.1, h.2.2.2.2.1, h.2.2.2.2.2.2.2.1⟩

/-! ## Input controller (`enterKeyHandler`, `feed.js` lines 724-806) -/

/-- JavaScript `text.split(' ')` on a character list: splits at every
single space, keeping empty segments, and yields `[""]` on the empty
string. -/
def splitOnSpace : List Char → List String
  | [] => [""]
  | c :: rest =>
    if c = ' ' then "" :: splitOnSpace rest
    else
      match splitOnSpace rest with
      | [] => [String.singleton c]
      | w :: ws => (String.singleton c ++ w) :: ws

/-- JavaScript `String.prototype.toLowerCase`, restricted to the simple
character-wise lowering used for command names. -/
def jsToLower (s : String) : String := ⟨s.data.map Char.toLower⟩

/-- Modelled from the spec: `textTools.trimSpace` lives in the `textTools`
module, which is not among the provided sources.  The spec's "split into
argument tokens" tokenization is modelled by collapsing runs of spaces and
trimming the ends before splitting on single spaces. -/
def trimSpace (s : String) : String :=
  String.intercalate " " ((splitOnSpace s.data).filter (fun t => t ≠ ""))

/-- The tokenization `textTools.trimSpace(inputText).split(' ')` used by
`enterKeyHandler`. -/
def tokenizeInput (inputText : String) : List String :=
  splitOnSpace (trimSpace inputText).data

/-- A registry command definition, with the fields `enterKeyHandler` and
`autoCompleteCommand` consume: JavaScript `NaN` access levels become
`none`. -/
structure Command where
  commandName : String
  accessLevel : Option Nat
  clearBeforeUse : Bool
  clearAfterUse : Bool
deriving DecidableEq, Repr

/-- The external collaborators of `feed.js`, as read-only parameters: the
command registry (`commandHandler.getCommand`, `getCommands`,
access/visibility levels, command characters, aliases), the storage module
(access level, user, mode, disabled flag) and the label/DOM text sources. -/
structure FeedEnv where
  getCommand : String → Option Command
  aliases : String → Option (List String)
  disableCommands : Bool
  accessLevel : Nat
  user : Option String
  mode : String
  commandChars : List Char
  allCommands : List String
  commandAccess : String → Option Nat
  commandVisibility : String → Nat
  commandFailText : String
  mustRegisterText : String
  inputStart : String
  modeText : String

/-- Embedding of `combineSequences` (`feed.js` lines 478-482). -/
def combineSequences (env : FeedEnv) (commandName : String) (phrases : List String) :
    List String :=
  match env.aliases commandName with
  | some aliasSeq => aliasSeq ++ phrases.drop 1
  | none => phrases.drop 1

/-- Embedding of `printUsedCommand` (`feed.js` lines 659-671): `null` when
the command clears after use, otherwise the echoed command row. -/
def printUsedCommand (env : FeedEnv) (clearAfterUse : Bool) (inputText : String) :
    Option String :=
  if clearAfterUse then none
  else some (env.inputStart ++ env.modeText ++ "$ " ++ inputText)

/-- The access gate of `enterKeyHandler` line 755:
`isNaN(command.accessLevel) || storage.getAccessLevel() >= command.accessLevel`. -/
def jsAccessOk (env : FeedEnv) (al : Option Nat) : Bool :=
  match al with
  | none => true
  | some a => decide (a ≤ env.accessLevel)

/-- The check `commandHandler.getCommandChars().indexOf(phrases[0].charAt(0)) >= 0`
used in the chat-mode branch. -/
def firstCharIsCommandChar (env : FeedEnv) (s : String) : Bool :=
  match s.data.head? with
  | some ch => env.commandChars.contains ch
  | none => false

/-- The observable terminal state touched by `enterKeyHandler`: the
session singleton, the history log, the dispatcher queue, the queued
display messages, and traces of the external calls
(`triggerCommandStep` arguments, direct `triggerCommand` names, registry
lookups) together with the history read pointer and whether
`startCommandQueue` was invoked. -/
structure TermState where
  commandHelper : CommandHelper
  commandHistory : List String
  commandQueue : List Invocation
  messages : List String
  stepCalls : List (List String)
  triggeredCommands : List String
  lookups : List String
  previousCommandPointer : Nat
  startedQueue : Bool
deriving DecidableEq, Repr

/-- The `else if`-chain of `enterKeyHandler` lines 768-795, reached when
the first token resolved to no runnable command: chat-mode input becomes a
queued `msg` command (the source queues `getCommand('msg').func`; the
model records the name `"msg"`) unless it starts with a command character,
logged-out users get the register notice, and otherwise the failed line is
pushed to history and a failure message displayed. -/
def enterKeyFallback (env : FeedEnv) (phrases : List String) (s : TermState) : TermState :=
  let first := phrases.headD ""
  if env.user ≠ none ∧ env.mode = "chat" ∧ 0 < first.length then
    if firstCharIsCommandChar env first = false then
      { s with commandQueue := s.commandQueue ++ [⟨"msg", phrases, none⟩]
               startedQueue := true }
    else
      { s with messages := s.messages ++ [first ++ ": " ++ env.commandFailText] }
  else if env.user = none then
    { s with messages := s.messages ++ [String.intercalate "," phrases, env.mustRegisterText] }
  else
    { s with commandHistory := s.commandHistory ++ [String.intercalate " " phrases]
             messages := s.messages ++ ["- " ++ first ++ ": " ++ env.commandFailText] }

/-- Embedding of `enterKeyHandler` (`feed.js` lines 727-806).  When the
re-entrancy guard is up nothing is handled; with an active multi-step
command the tokens `exit`/`abort` reset the session and every other line
is echoed (unless hidden) and passed to the step handler; otherwise the
first token is resolved against the registry, a runnable command is pushed
to history and queued, and the remaining cases fall through to
`enterKeyFallback`.  The trailing `resetPreviousCommandPointer` resets the
history read pointer to the (possibly updated) log length. -/
def enterKeyHandler (env : FeedEnv) (inputText : String) (s : TermState) : TermState :=
  let helper := s.commandHelper
  let s1 :=
    if helper.keysBlocked then s
    else
      match helper.command with
      | some _ =>
        let phrases := tokenizeInput inputText
        if phrases.headD "" = "exit" ∨ phrases.headD "" = "abort" then
          { s with commandHelper := resetCommand true helper }
        else
          let s2 :=
            if helper.hideInput = false then { s with messages := s.messages ++ [inputText] }
            else s
          { s2 with stepCalls := s2.stepCalls ++ [phrases] }
      | none =>
        let phrases := tokenizeInput inputText
        let first := phrases.headD ""
        if 0 < first.length then
          let s2 := { s with lookups := s.lookups ++ [jsToLower first] }
          match env.getCommand (jsToLower first) with
          | some command =>
            if env.disableCommands = false ∧ jsAccessOk env command.accessLevel = true then
              let s3 := { s2 with
                commandHistory := s2.commandHistory ++ [String.intercalate " " phrases] }
              let s4 :=
                if command.clearBeforeUse then
                  { s3 with triggeredCommands := s3.triggeredCommands ++ ["clear"] }
                else s3
              let s5 := { s4 with commandQueue := s4.commandQueue ++
                [Invocation.mk command.commandName (combineSequences env command.commandName phrases)
                  (printUsedCommand env command.clearAfterUse inputText)] }
              { s5 with startedQueue := true }
            else enterKeyFallback env phrases s2
          | none => enterKeyFallback env phrases s2
        else
          { s with messages := s.messages ++ (printUsedCommand env false " ").toList }
  { s1 with previousCommandPointer := s1.commandHistory.length }

/-! ## History navigator (`specialKeyPress` arrow cases, `feed.js` lines 947-985) -/

/-- The history state touched by arrow-key navigation: the stored command
history and the module-level `previousCommandPointer`. -/
structure HistState where
  commandHistory : List String
  previousCommandPointer : Nat
deriving DecidableEq, Repr

/-- Embedding of the up-arrow case (keyCode 38): with ctrl held the view
scrolls instead; otherwise, when no session is active and the pointer is
positive, the pointer moves down by one and the input is replaced by the
entry at the new pointer.  The second component is the input text set by
the handler (`none` when the input is left untouched). -/
def keyUpArrow (ctrl keysBlocked : Bool) (activeCommand : Option String) (s : HistState) :
    HistState × Option String :=
  if ctrl then (s, none)
  else if keysBlocked = false ∧ activeCommand = none ∧ 0 < s.previousCommandPointer then
    (⟨s.commandHistory, s.previousCommandPointer - 1⟩,
      some ((s.commandHistory.get? (s.previousCommandPointer - 1)).getD ""))
  else (s, none)

/-- Embedding of the down-arrow case (keyCode 40): below `length - 1` the
pointer moves up and the entry at the new pointer is shown; at
`length - 1` the pointer moves to `length` and the input is cleared; past
that only the input is cleared and the pointer stays. -/
def keyDownArrow (ctrl keysBlocked : Bool) (activeCommand : Option String) (s : HistState) :
    HistState × Option String :=
  if ctrl then (s, none)
  else if keysBlocked = false ∧ activeCommand = none then
    if s.previousCommandPointer + 1 < s.commandHistory.length then
      (⟨s.commandHistory, s.previousCommandPointer + 1⟩,
        some ((s.commandHistory.get? (s.previousCommandPointer + 1)).getD ""))
    else if s.previousCommandPointer + 1 = s.commandHistory.length then
      (⟨s.commandHistory, s.previousCommandPointer + 1⟩, some "")
    else (s, some "")
  else (s, none)

/-- C5: on the history log `["a","b","c"]` with the pointer at 3, moving up
shows `"c"` with pointer 2, then `"b"` with pointer 1; moving down shows
`"c"` with pointer 2, then an empty line with pointer 3, and a further
move down leaves the pointer at 3 with an empty line; navigation never
changes the log itself, and `enterKeyHandler` always leaves the read
pointer at the resulting log length. -/
theorem history_navigation_chain :
    (∀ (ctrl kb : Bool) (ac : Option String) (s : HistState),
        (keyUpArrow ctrl kb ac s).1.commandHistory = s.commandHistory
      ∧ (keyDownArrow ctrl kb ac s).1.commandHistory = s.commandHistory)
    ∧ (∀ (env : FeedEnv) (inputText : String) (s : TermState),
        (enterKeyHandler env inputText s).previousCommandPointer
          = (enterKeyHandler env inputText s).commandHistory.length)
    ∧ keyUpArrow false false none ⟨["a", "b", "c"], 3⟩ = (⟨["a", "b", "c"], 2⟩, some "c")
    ∧ keyUpArrow false false none ⟨["a", "b", "c"], 2⟩ = (⟨["a", "b", "c"], 1⟩, some "b")
    ∧ keyDownArrow false false none ⟨["a", "b", "c"], 1⟩ = (⟨["a", "b", "c"], 2⟩, some "c")
    ∧ keyDownArrow false false none ⟨["a", "b", "c"], 2⟩ = (⟨["a", "b", "c"], 3⟩, some "")
    ∧ keyDownArrow false false none ⟨["a", "b", "c"], 3⟩ = (⟨["a", "b", "c"], 3⟩, some "") := by
  refine ⟨?_, ?_, by decide, by decide, by decide, by decide, by decide⟩
  · intro ctrl kb ac s
    constructor
    · unfold keyUpArrow
      split
      · rfl
      · split <;> rfl
    · unfold keyDownArrow
      split
      · rfl
      · split
        · split
          · rfl
          · split <;> rfl
        · rfl
  · intro env inputText s
    rfl

/-! ## Claim theorems: input routing while a session is active -/

/-- C3: while a multi-step session is active and the re-entrancy guard is
down, a submitted line whose first token is `exit` or `abort` resets the
session to IDLE without consulting the registry; every other line is
passed, split into its argument tokens, to the active command's step
handler, with no registry lookup, no queued invocation, and the session
record untouched. -/
theorem activeSession_routes_input (env : FeedEnv) (inputText : String) (s : TermState)
    (c : String) (hkb : s.commandHelper.keysBlocked = false)
    (hc : s.commandHelper.command = some c) :
    ((tokenizeInput inputText).headD "" = "exit" ∨ (tokenizeInput inputText).headD "" = "abort" →
        (enterKeyHandler env inputText s).commandHelper.command = none
      ∧ (enterKeyHandler env inputText s).stepCalls = s.stepCalls
      ∧ (enterKeyHandler env inputText s).lookups = s.lookups)
    ∧ (¬((tokenizeInput inputText).headD "" = "exit"
          ∨ (tokenizeInput inputText).headD "" = "abort") →
        (enterKeyHandler env inputText s).stepCalls = s.stepCalls ++ [tokenizeInput inputText]
      ∧ (enterKeyHandler env inputText s).lookups = s.lookups
      ∧ (enterKeyHandler env inputText s).commandQueue = s.commandQueue
      ∧ (enterKeyHandler env inputText s).commandHelper = s.commandHelper) := by
  constructor
  · intro hab
    rw [List.headD_eq_head?] at hab
    simp [enterKeyHandler, hkb, hc, hab, resetCommand]
  · intro hab
    rw [List.headD_eq_head?] at hab
    by_cases hh : s.commandHelper.hideInput = false <;>
      simp [enterKeyHandler, hkb, hc, hab, hh]

/-- A concrete environment for witnesses: a logged-in user in command mode
with an empty registry. -/
def sampleEnv : FeedEnv :=
  { getCommand := fun _ => none
    aliases := fun _ => none
    disableCommands := false
    accessLevel := 1
    user := some "alice"
    mode := "cmd"
    commandChars := ['-']
    allCommands := []
    commandAccess := fun _ => none
    commandVisibility := fun _ => 0
    commandFailText := "command not found"
    mustRegisterText := "must register"
    inputStart := ""
    modeText := "" }

/-- A concrete idle terminal state for witnesses. -/
def idleTermState : TermState :=
  { commandHelper := ⟨none, 0, 0, false, false⟩
    commandHistory := []
    commandQueue := []
    messages := []
    stepCalls := []
    triggeredCommands := []
    lookups := []
    previousCommandPointer := 0
    startedQueue := false }

/-- A concrete terminal state with an active multi-step session. -/
def activeTermState : TermState :=
  { idleTermState with commandHelper := ⟨some "follow", 1, 0, false, false⟩ }

/-- Witness for C3: with the active session of `activeTermState`, the line
`"hello world"` goes verbatim to the step handler with no lookup and no
queued invocation, and the line `"exit"` resets the session. -/
theorem activeSession_routes_input_witness :
    (enterKeyHandler sampleEnv "hello world" activeTermState).stepCalls = [["hello", "world"]]
    ∧ (enterKeyHandler sampleEnv "hello world" activeTermState).lookups = []
    ∧ (enterKeyHandler sampleEnv "hello world" activeTermState).commandQueue = []
    ∧ (enterKeyHandler sampleEnv "exit" activeTermState).commandHelper.command = none := by
  have h1 := (activeSession_routes_input sampleEnv "hello world" activeTermState
    "follow" rfl rfl).2 (by decide)
  have h2 := (activeSession_routes_input sampleEnv "exit" activeTermState
    "follow" rfl rfl).1 (by decide)
  exact ⟨h1.1, h1.2.1, h1.2.2.1, h2.1⟩

/-- C9 counterexample: submitting `"qwerty"` with an empty registry (no
command matches) displays the failure message but also appends the line to
the history log, so the handling is not free of state changes. -/
theorem unknownCommand_pushes_history_cex :
    sampleEnv.getCommand "qwerty" = none
    ∧ (enterKeyHandler sampleEnv "qwerty" idleTermState).messages
        = ["- qwerty: command not found"]
    ∧ (enterKeyHandler sampleEnv "qwerty" idleTermState).commandHistory = ["qwerty"]
    ∧ idleTermState.commandHistory = []
    ∧ (["qwerty"] : List String) ≠ [] := by
  exact ⟨rfl, by decide, by decide, rfl, by decide⟩

/-- C9 amended: when the first token of a submitted line resolves to no
registry command and a user is logged in, the handler leaves the command
queue and the session record unchanged; outside chat mode it displays the
failure message and additionally appends the submitted line to the history
log, and in chat mode a line starting with a command character gets the
failure message with queue, session and history all unchanged. -/
theorem unknownCommand_reported (env : FeedEnv) (inputText : String) (s : TermState)
    (hkb : s.commandHelper.keysBlocked = false)
    (hc : s.commandHelper.command = none)
    (hlen : 0 < ((tokenizeInput inputText).headD "").length)
    (hlook : env.getCommand (jsToLower ((tokenizeInput inputText).headD "")) = none)
    (huser : env.user ≠ none) :
    (env.mode ≠ "chat" →
        (enterKeyHandler env inputText s).commandQueue = s.commandQueue
      ∧ (enterKeyHandler env inputText s).commandHelper = s.commandHelper
      ∧ (enterKeyHandler env inputText s).messages = s.messages ++
          ["- " ++ (tokenizeInput inputText).headD "" ++ ": " ++ env.commandFailText]
      ∧ (enterKeyHandler env inputText s).commandHistory = s.commandHistory ++
          [String.intercalate " " (tokenizeInput inputText)])
    ∧ (env.mode = "chat" ∧ firstCharIsCommandChar env ((tokenizeInput inputText).headD "") = true →
        (enterKeyHandler env inputText s).commandQueue = s.commandQueue
      ∧ (enterKeyHandler env inputText s).commandHelper = s.commandHelper
      ∧ (enterKeyHandler env inputText s).commandHistory = s.commandHistory
      ∧ (enterKeyHandler env inputText s).messages = s.messages ++
          [(tokenizeInput inputText).headD "" ++ ": " ++ env.commandFailText]) := by
  rw [List.headD_eq_head?] at hlen hlook
  constructor
  · intro hmode
    simp [enterKeyHandler, enterKeyFallback, hkb, hc, hlen, hlook, hmode, huser]
  · rintro ⟨hmode, hchar⟩
    rw [List.headD_eq_head?] at hchar
    simp [enterKeyHandler, enterKeyFallback, hkb, hc, hlen, hlook, hmode, huser, hchar]

/-- Witness for C9 amended, at the concrete unknown line `"qwerty"`. -/
theorem unknownCommand_reported_witness :
    (enterKeyHandler sampleEnv "qwerty" idleTermState).commandQueue = []
    ∧ (enterKeyHandler sampleEnv "qwerty" idleTermState).commandHelper
        = idleTermState.commandHelper
    ∧ (enterKeyHandler sampleEnv "qwerty" idleTermState).commandHistory = ["qwerty"] := by
  have h := (unknownCommand_reported sampleEnv "qwerty" idleTermState rfl rfl
    (by decide) rfl (by decide)).1 (by decide)
  exact ⟨h.1, h.2.1, by rw [h.2.2.2]; rfl⟩

/-! ## Autocomplete matcher (`feed.js` lines 484-651) -/

/-- JavaScript `s.charAt(i)`, with out-of-range access (`''`) modelled as
`none`. -/
def jsCharAt (s : String) (i : Nat) : Option Char := s.data.get? i

/-- The inner loop of `expandPartialMatch`: do all matched commands carry
`commandChar` at position `i`? -/
def expandAllMatchAt (matchedCommands : List String) (commandChar : Char) (i : Nat) : Bool :=
  matchedCommands.all (fun cmd => jsCharAt cmd i == some commandChar)

/-- The outer loop of `expandPartialMatch`, from position `i` with the
accumulated `expanded` string; the fuel is bounded by the first command's
length, matching the loop bound `i < firstCommand.length`.  On the first
mismatching position the partial plus the accumulated extension is
returned (prefixed with the command sign when it is a command character);
when the loop runs off the end of the first command the function returns
the empty string. -/
def expandFrom (isCmdChar : Char → Bool) (matchedCommands : List String)
    (firstCommand partialMatch : String) (sign : Char) :
    Nat → Nat → String → String
  | 0, _, _ => ""
  | fuel + 1, i, expanded =>
    match jsCharAt firstCommand i with
    | none => ""
    | some commandChar =>
      if expandAllMatchAt matchedCommands commandChar i then
        expandFrom isCmdChar matchedCommands firstCommand partialMatch sign fuel (i + 1)
          (expanded.push commandChar)
      else
        if isCmdChar sign then String.singleton sign ++ partialMatch ++ expanded
        else partialMatch ++ expanded

/-- Embedding of `expandPartialMatch` (`feed.js` lines 491-515).  The
`commandHandler.isCommandChar` collaborator is passed as a parameter. -/
def expandPartialMatch (isCmdChar : Char → Bool) (matchedCommands : List String)
    (partialMatch : String) (sign : Char) : String :=
  let firstCommand := matchedCommands.headD ""
  expandFrom isCmdChar matchedCommands firstCommand partialMatch sign
    firstCommand.length partialMatch.length ""

/-- The inner loop of the `match` helper (`feed.js` lines 524-547): compare
the partial against one name character by character, starting from the
stale `matches` value left by the previous item (observable only for an
empty partial, which never assigns `matches`). -/
def matchInner (partialStr name : String) (matches0 : Bool) : Bool :=
  if partialStr.length = 0 then matches0
  else (List.range partialStr.length).all (fun j => jsCharAt partialStr j == jsCharAt name j)

/-- The outer loop of the `match` helper, threading the shared `matches`
flag through the items. -/
def matchFnGo (partialStr : String) : List String → Bool → List String
  | [], _ => []
  | name :: rest, matches0 =>
    let m := matchInner partialStr name matches0
    if m then name :: matchFnGo partialStr rest m else matchFnGo partialStr rest m

/-- Embedding of the `match` helper of `feed.js` (the name `match` is a
Lean keyword): collect the items the partial string prefix-matches. -/
def matchFn (partialStr : String) (items : List String) : List String :=
  matchFnGo partialStr items false

/-- A node of a command's option tree: the optional `next` mapping from
option keys to deeper nodes. -/
inductive CommandOption where
  | mk (next : Option (List (String × CommandOption)))

/-- Projection for the `next` field of an option node. -/
def CommandOption.next : CommandOption → Option (List (String × CommandOption))
  | .mk n => n

/-- The observable effects of one autocomplete invocation: DOM mutations
(`clearInput`, `setCommandInput`, `replaceLastInputPhrase`) and queued
display messages. -/
inductive Effect where
  | clearInput
  | setInput (text : String)
  | replaceLastPhrase (text : String)
  | message (text : String)
deriving DecidableEq, Repr

/-- Whether an effect mutates the input text (as opposed to only
displaying a message). -/
def Effect.isMutation : Effect → Bool
  | .message _ => false
  | _ => true

/-- The branch taken by `autoCompleteOption` together with the candidate
key set and the computed matches: the `option.next` branch, the
first-level branch (`phrases.length <= 2`), or neither. -/
inductive OptBranch where
  | nextLevel (nextKeys : List String) (matched : List String)
  | firstLevel (firstLevelOptions : List String) (matched : List String)
  | noBranch
deriving DecidableEq, Repr

/-- The scanning part of `autoCompleteOption` (`feed.js` lines 555-587):
look up the option node named by the second phrase, and match the last
phrase against that node's keys, or against the first-level option keys
when at most two phrases are present. -/
def acOptionScan (phrases : List String) (options : List (String × CommandOption)) :
    OptBranch :=
  let option := (phrases.get? 1).bind (fun k => options.lookup k)
  let lastPhrase := phrases.getLastD ""
  match option with
  | some opt =>
    match opt.next with
    | some next =>
      OptBranch.nextLevel (next.map Prod.fst) (matchFn lastPhrase (next.map Prod.fst))
    | none =>
      if phrases.length ≤ 2 then
        OptBranch.firstLevel (options.map Prod.fst) (matchFn lastPhrase (options.map Prod.fst))
      else OptBranch.noBranch
  | none =>
    if phrases.length ≤ 2 then
      OptBranch.firstLevel (options.map Prod.fst) (matchFn lastPhrase (options.map Prod.fst))
    else OptBranch.noBranch

/-- The matched candidate list computed by `autoCompleteOption`. -/
def acOptionMatched (phrases : List String) (options : List (String × CommandOption)) :
    List String :=
  match acOptionScan phrases options with
  | .nextLevel _ matched => matched
  | .firstLevel _ matched => matched
  | .noBranch => []

/-- Embedding of `autoCompleteOption` (`feed.js` lines 555-587): a single
match replaces the last input phrase; several matches are displayed (in the
first-level branch after re-setting the trimmed input); zero matches fall
back to displaying the full key list (in the `next` branch whenever keys
exist, in the first-level branch only for an empty partial). -/
def autoCompleteOption (inputText : String) (phrases : List String)
    (options : List (String × CommandOption)) : List Effect :=
  match acOptionScan phrases options with
  | .nextLevel nextKeys matched =>
    if matched.length = 1 then [Effect.replaceLastPhrase (matched.headD "" ++ " ")]
    else if 0 < matched.length then [Effect.message (String.intercalate " - " matched)]
    else if 0 < nextKeys.length then [Effect.message (String.intercalate " - " nextKeys)]
    else []
  | .firstLevel firstLevelOptions matched =>
    if matched.length = 1 then [Effect.replaceLastPhrase (matched.headD "" ++ " ")]
    else if 0 < matched.length then
      [Effect.setInput (trimSpace inputText), Effect.message (String.intercalate " - " matched)]
    else if phrases.getLastD "" = "" then
      [Effect.message (String.intercalate " - " firstLevelOptions)]
    else []
  | .noBranch => []

/-- The per-command matching loop of `autoCompleteCommand` (`feed.js`
lines 611-631): every position of the partial must pass the access and
visibility gates and agree with the command's character there; an empty
partial never sets `matches` and therefore never matches. -/
def commandMatches (env : FeedEnv) (partialCommand command : String) : Bool :=
  decide (0 < partialCommand.length) &&
  (List.range partialCommand.length).all (fun j =>
    jsAccessOk env (env.commandAccess command) &&
    decide (env.commandVisibility command ≤ env.accessLevel) &&
    (jsCharAt partialCommand j == jsCharAt command j))

/-- The guard and matching part of `autoCompleteCommand` (`feed.js` lines
593-631): with exactly one non-empty phrase, in command mode, logged out,
or with a command-character sign, strip the sign and filter the visible
commands; returns the sign, the stripped partial and the matches. -/
def acCommandScan (env : FeedEnv) (phrases : List String) :
    Option (Char × String × List String) :=
  let first := phrases.headD ""
  match first.data.head? with
  | none => none
  | some sign =>
    if phrases.length = 1
        ∧ (env.commandChars.contains sign ∨ env.mode = "cmd" ∨ env.user = none) then
      let partialCommand := if env.commandChars.contains sign then (⟨first.data.drop 1⟩ : String) else first
      some (sign, partialCommand, env.allCommands.filter (commandMatches env partialCommand))
    else none

/-- The matched command list computed by `autoCompleteCommand`. -/
def acCommandMatched (env : FeedEnv) (phrases : List String) : List String :=
  match acCommandScan env phrases with
  | none => []
  | some (_, _, matched) => matched

/-- Embedding of `autoCompleteCommand` (`feed.js` lines 593-651): one match
clears the input and sets it to the (possibly sign-prefixed) command plus a
trailing space; several matches set the input to the trimmed
`expandPartialMatch` result and display the candidate list; zero matches do
nothing. -/
def autoCompleteCommand (env : FeedEnv) (phrases : List String) : List Effect :=
  match acCommandScan env phrases with
  | none => []
  | some (sign, partialCommand, matched) =>
    if matched.length = 1 then
      [Effect.clearInput,
        Effect.setInput ((if env.commandChars.contains sign then String.singleton sign else "")
          ++ matched.headD "" ++ " ")]
    else if 0 < matched.length then
      [Effect.setInput (trimSpace (expandPartialMatch (fun ch => env.commandChars.contains ch)
          matched partialCommand sign)),
        Effect.message (String.intercalate " - " matched)]
    else []

/-! ## Claim theorems: autocomplete -/

/-- A registry environment exposing the two commands of the C4 scenario in
command mode. -/
def followEnv : FeedEnv := { sampleEnv with allCommands := ["follow", "followpublic"] }

/-- A sample option tree with a `sub` option whose next level holds the
keys `on` and `off`. -/
def sampleOptions : List (String × CommandOption) :=
  [("sub", CommandOption.mk (some [("on", CommandOption.mk none), ("off", CommandOption.mk none)]))]

/-- C4, the code evaluated at the failing input: with candidates
`["follow", "followpublic"]` and partial `"fo"` both candidates match, but
`expandPartialMatch` runs off the end of the first candidate (which is a
prefix of the other) without hitting a mismatch and returns `""`, so
`autoCompleteCommand` sets the input to the empty string — wiping the
typed partial — while displaying the candidate list; with the candidates
in the opposite order the first mismatch returns `"follow"`, the partial
plus the extension.  Neither result is the bare extension `"llow"` that
the claim (and the function's own documented purpose of expanding the
partial) requires. -/
theorem autoComplete_follow_partial_eval :
    matchFn "fo" ["follow", "followpublic"] = ["follow", "followpublic"]
    ∧ expandPartialMatch (fun c => c == '-' || c == '/') ["follow", "followpublic"] "fo" 'f' = ""
    ∧ expandPartialMatch (fun c => c == '-' || c == '/') ["followpublic", "follow"] "fo" 'f'
        = "follow"
    ∧ autoCompleteCommand followEnv ["fo"]
        = [Effect.setInput "", Effect.message "follow - followpublic"]
    ∧ ("" : String) ≠ "llow" ∧ ("follow" : String) ≠ "llow" := by
  decide

/-- C8 counterexample: option-tree autocomplete with partial `"zz"` against
the keys `on`/`off` yields zero matches, yet displays the full key list
instead of nothing. -/
theorem zeroMatch_option_displays_cex :
    matchFn "zz" ["on", "off"] = []
    ∧ autoCompleteOption "" ["cmd", "sub", "zz"] sampleOptions = [Effect.message "on - off"]
    ∧ ([Effect.message "on - off"] : List Effect) ≠ [] := by
  decide

/-- C8 amended: an autocomplete invocation whose prefix matching yields
zero matches never mutates the input text and surfaces no error —
command-name matching then has no effect at all, while option-tree
matching may still display the available option keys as a fallback. -/
theorem zeroMatch_no_input_mutation (env : FeedEnv) (inputText : String)
    (phrases : List String) (options : List (String × CommandOption))
    (hopt : acOptionMatched phrases options = [])
    (hcmd : acCommandMatched env phrases = []) :
    (autoCompleteOption inputText phrases options).filter Effect.isMutation = []
    ∧ autoCompleteCommand env phrases = [] := by
  constructor
  · unfold acOptionMatched at hopt
    unfold autoCompleteOption
    cases hs : acOptionScan phrases options with
    | nextLevel nextKeys matched =>
      rw [hs] at hopt
      subst hopt
      simp [Effect.isMutation]
    | firstLevel firstLevelOptions matched =>
      rw [hs] at hopt
      subst hopt
      simp [Effect.isMutation]
    | noBranch => simp
  · unfold acCommandMatched at hcmd
    unfold autoCompleteCommand
    cases hs : acCommandScan env phrases with
    | none => simp
    | some triple =>
      rw [hs] at hcmd
      obtain ⟨sign, partialCommand, matched⟩ := triple
      simp at hcmd
      subst hcmd
      simp

/-- Witness for C8 amended: empty candidate sets produce zero matches, no
mutation and no effects at all. -/
theorem zeroMatch_no_input_mutation_witness :
    acOptionMatched ["zz"] [] = []
    ∧ acCommandMatched sampleEnv ["zz"] = []
    ∧ (autoCompleteOption "" ["zz"] []).filter Effect.isMutation = []
    ∧ autoCompleteCommand sampleEnv ["zz"] = [] := by
  have h := zeroMatch_no_input_mutation sampleEnv "" ["zz"] [] (by decide) (by decide)
  exact ⟨by decide, by decide, h.1, h.2⟩

end RoleTerminal
